import Mathlib

/-!
Shallow embedding of the `ubo-gui` paginated menu widget.

The navigation state machine lives in `src/ubo_gui/menu/__init__.py`
(`MenuWidget`); the page widget in `src/src/page/__init__.py` (`PageWidget`).
Kivy `AliasProperty` setters (`set_current_menu`, `set_current_application`)
are translated as state-to-state functions invoked wherever the source assigns
to the corresponding property.  The screen manager's `current_screen` is
identified with the widget's `current_screen` alias (`get_current_screen`):
every mutation in the source is followed by a `switch_to(self.current_screen)`.
Screen transitions are counted in the `switches` field; kivy `bind`/`unbind`
of `on_close` handlers is tracked in the `bound` field (list of bound
application ids).
-/

set_option linter.unusedVariables false
set_option linter.unnecessarySeqFocus false

mutual

/-- Modelled from the spec: `menu/types.py` is not in `src`.  Per the data
model a `Menu` is "a node with title, optional heading/sub-heading, and an
ordered sequence of items"; `headed = true` corresponds to the `HeadedMenu`
variant carrying the heading and sub-heading. -/
inductive Menu : Type where
  | mk (headed : Bool) (heading sub_heading title : String)
       (items : List MenuItem) : Menu

/-- Modelled from the spec: an `Item` is "one of three variants — Action
(invokes a callback, may return a new Menu or application class), SubMenu
(references a child Menu), Application (references a launchable full-screen
component)".  An application class is represented by the item list its
instances carry. -/
inductive MenuItem : Type where
  | ActionItem (result : ActionResult) : MenuItem
  | ApplicationItem (cls_items : List MenuItem) : MenuItem
  | SubMenuItem (sub : Menu) : MenuItem

/-- Modelled from the spec: the possible results of an Action item's callback
(`None`, a new `Menu`, or an application class). -/
inductive ActionResult : Type where
  | returnsNone : ActionResult
  | returnsMenu (m : Menu) : ActionResult
  | returnsApplicationClass (cls_items : List MenuItem) : ActionResult

end

/-- Projection of the `headed` flag (`isinstance(menu, HeadedMenu)`). -/
def Menu.headed : Menu → Bool
  | .mk headed _ _ _ _ => headed

/-- Projection of the heading of a menu. -/
def Menu.heading : Menu → String
  | .mk _ heading _ _ _ => heading

/-- Projection of the sub-heading of a menu. -/
def Menu.sub_heading : Menu → String
  | .mk _ _ sub_heading _ _ => sub_heading

/-- Projection of the title of a menu. -/
def Menu.title : Menu → String
  | .mk _ _ _ title _ => title

/-- Projection of the ordered item sequence of a menu. -/
def Menu.items : Menu → List MenuItem
  | .mk _ _ _ _ items => items

/-- An application instance (`PageWidget` subclass instance created via
`item(name=uuid.uuid4().hex)`).  `id` stands for the unique `name`; `items`
is the item list the instance carries (cf. `PageWidget.items`). -/
structure AppInstance : Type where
  id : Nat
  items : List MenuItem

/-- An entry of `MenuWidget.stack`: either a `(menu, page_index)` pair or an
application instance (cf. the declaration
`stack: list[tuple[Menu, int] | PageWidget]`). -/
inductive StackEntry : Type where
  | menuEntry (menu : Menu) (page_index : Int) : StackEntry
  | appEntry (app : AppInstance) : StackEntry

/-- The state of a `MenuWidget`: `_current_menu`, `_current_application`,
`page_index` (a kivy `NumericProperty`, default 0), `stack`, plus the
bookkeeping fields `bound` (application ids with a bound `on_close` handler)
and `switches` (number of `screen_manager.switch_to` calls). -/
structure MenuWidgetState : Type where
  current_menu : Option Menu
  current_application : Option AppInstance
  page_index : Int
  stack : List StackEntry
  bound : List Nat
  switches : Nat

/-- Modelled from the spec: `menu/constants.py` (defining `PAGE_SIZE`) is not
in `src`; the spec fixes "fixed-size pages (3 items/page)", and the same
module hard-codes the chunk size 3 next to every use of `PAGE_SIZE`. -/
def PAGE_SIZE : Int := 3

/-- `MAX_ITEMS` from `src/src/page/__init__.py`. -/
def MAX_ITEMS : Nat := 3

/-- Modelled from the spec: `menu_items` from `menu/types.py` is not in
`src`; it returns the menu's ordered item sequence (empty when there is no
menu). -/
def menu_items : Option Menu → List MenuItem
  | none => []
  | some m => m.items

/-- `current_menu_items`: kept equal to `menu_items(current_menu)` by
`set_current_menu` (reactive item subscriptions are outside the model). -/
def current_menu_items (s : MenuWidgetState) : List MenuItem :=
  menu_items s.current_menu

/-- `MenuWidget.get_depth`: `len(self.stack)`. -/
def get_depth (s : MenuWidgetState) : Nat :=
  s.stack.length

/-- `MenuWidget.get_pages`: 0 with no current menu;
`math.ceil((len(items) + 2) / 3)` for a `HeadedMenu`; `math.ceil(len(items) / 3)`
otherwise.  `math.ceil(x / 3)` on naturals is `(x + 2) / 3` in natural
division. -/
def get_pages (s : MenuWidgetState) : Nat :=
  match s.current_menu with
  | none => 0
  | some m =>
      if m.headed then ((current_menu_items s).length + 2 + 2) / 3
      else ((current_menu_items s).length + 2) / 3

/-- Python list slicing `l[a:b]` (step 1): negative indices count from the
end, and both bounds are clamped to `[0, len(l)]`. -/
def pySlice {α : Type} (l : List α) (a b : Int) : List α :=
  let n : Int := l.length
  let a2 : Int := if a < 0 then max (n + a) 0 else min a n
  let b2 : Int := if b < 0 then max (n + b) 0 else min b n
  (l.drop a2.toNat).take (b2 - a2).toNat

/-- What a constructed page shows: an open application, a
`HeaderMenuPageWidget` (items, heading, sub-heading), or a
`NormalMenuPageWidget` (items). -/
inductive ScreenW : Type where
  | appScreen (app : AppInstance) : ScreenW
  | headerPage (items : List MenuItem) (heading sub_heading : String) : ScreenW
  | normalPage (items : List MenuItem) : ScreenW

/-- The item list stored by a page (`PageWidget.items`). -/
def screen_items : ScreenW → List MenuItem
  | .appScreen a => a.items
  | .headerPage items _ _ => items
  | .normalPage items => items

/-- `MenuWidget.get_current_screen`: the open application if any, `None`
without a current menu, a `HeaderMenuPageWidget` over `items[:1]` on page 0 of
a headed menu, else a `NormalMenuPageWidget` over
`items[page_index * 3 + offset : page_index * 3 + 3 + offset]` with
`offset = -(PAGE_SIZE - 1)` for a headed menu and `0` otherwise. -/
def get_current_screen (s : MenuWidgetState) : Option ScreenW :=
  match s.current_application with
  | some a => some (ScreenW.appScreen a)
  | none =>
    match s.current_menu with
    | none => none
    | some m =>
      if s.page_index = 0 ∧ m.headed = true then
        some (ScreenW.headerPage ((current_menu_items s).take 1)
          m.heading m.sub_heading)
      else
        let offset : Int := if m.headed then -(PAGE_SIZE - 1) else 0
        some (ScreenW.normalPage (pySlice (current_menu_items s)
          (s.page_index * 3 + offset) (s.page_index * 3 + 3 + offset)))

/-- `PageWidget.get_item` from `src/src/page/__init__.py`: warn and return
`None` unless `0 <= index < len(self.items)`, else return `items[index]`. -/
def get_item (items : List MenuItem) (index : Int) : Option MenuItem :=
  if 0 ≤ index ∧ index < (items.length : Int) then items[index.toNat]?
  else none

/-- The `ValueError` message raised by `PageWidget.__init__`. -/
def PageWidget_init_msg : String :=
  "`Page` is initialized with more than `MAX_ITEMS`=3 items"

/-- `PageWidget.__init__` from `src/src/page/__init__.py`: raise `ValueError`
when given more than `MAX_ITEMS` items, otherwise store exactly the given
items. -/
def PageWidget_init (items : List MenuItem) : Except String (List MenuItem) :=
  if items.length > MAX_ITEMS then Except.error PageWidget_init_msg
  else Except.ok items

/-- `MenuWidget.set_current_application`: store the application; a non-`None`
application also runs `self.current_menu = None`, whose `set_current_menu`
branch for `None` just clears the menu and resets `page_index` to 0. -/
def set_current_application (application : Option AppInstance)
    (s : MenuWidgetState) : MenuWidgetState :=
  let s1 := { s with current_application := application }
  match application with
  | some _ => { s1 with current_menu := none, page_index := 0 }
  | none => s1

/-- `MenuWidget.set_current_menu`: store the menu; for `None` reset
`page_index` to 0; otherwise run `self.current_application = None` and clamp:
if `page_index >= pages` then `page_index = max(pages - 1, 0)`. -/
def set_current_menu (menu : Option Menu) (s : MenuWidgetState) :
    MenuWidgetState :=
  let s1 := { s with current_menu := menu }
  match menu with
  | none => { s1 with page_index := 0 }
  | some _ =>
    let s2 := set_current_application none s1
    let pages : Int := get_pages s2
    if pages ≤ s2.page_index then { s2 with page_index := max (pages - 1) 0 }
    else s2

/-- `MenuWidget.push_menu`: append `(current_menu, page_index)` (or the
current application) to the stack, then reset `page_index` to 0. -/
def push_menu (s : MenuWidgetState) : MenuWidgetState :=
  match s.current_menu with
  | some m =>
      { s with stack := s.stack ++ [StackEntry.menuEntry m s.page_index],
               page_index := 0 }
  | none =>
    match s.current_application with
    | some a => { s with stack := s.stack ++ [StackEntry.appEntry a],
                         page_index := 0 }
    | none => { s with page_index := 0 }

/-- `MenuWidget.clean_application`: unbind the application's `on_close`
handler. -/
def clean_application (app : AppInstance) (s : MenuWidgetState) :
    MenuWidgetState :=
  { s with bound := s.bound.erase app.id }

/-- `MenuWidget.pop_menu`: no-op at depth 0; otherwise pop the last stack
entry.  An application entry becomes the current application (cleaning the one
being replaced); a menu entry is restored together with its saved
`page_index`.  Either way a screen transition follows. -/
def pop_menu (s : MenuWidgetState) : MenuWidgetState :=
  match s.stack.getLast? with
  | none => s
  | some target =>
    let s0 := { s with stack := s.stack.dropLast }
    match target with
    | .appEntry a =>
      let s1 := match s0.current_application with
        | some cur => clean_application cur s0
        | none => s0
      let s2 := set_current_application (some a) s1
      { s2 with switches := s2.switches + 1 }
    | .menuEntry m pi =>
      let s2 := set_current_menu (some m) s0
      { s2 with page_index := pi, switches := s2.switches + 1 }

/-- `MenuWidget.go_back`: an open application's own `go_back` runs first.
Modelled from the spec: the `ubo_gui` `PageWidget.go_back` default is not in
`src`; per the spec the go-back transition is a pop ("go-back (pop)"), so the
base application does not consume the event and `pop_menu` runs. -/
def go_back (s : MenuWidgetState) : MenuWidgetState :=
  pop_menu s

/-- `MenuWidget.go_down`: with an application open, delegate to it (its
`go_down` does not touch the navigation state); with zero current menu items
return immediately; otherwise `page_index = (page_index + 1) % pages` and a
screen transition.  Python `%` with a positive divisor matches `Int.emod`. -/
def go_down (s : MenuWidgetState) : MenuWidgetState :=
  match s.current_application with
  | some _ => s
  | none =>
    if (current_menu_items s).length = 0 then s
    else
      { s with page_index := (s.page_index + 1) % (get_pages s : Int),
               switches := s.switches + 1 }

/-- `MenuWidget.go_up`: symmetric to `go_down`, with
`page_index = (page_index - 1) % pages`. -/
def go_up (s : MenuWidgetState) : MenuWidgetState :=
  match s.current_application with
  | some _ => s
  | none =>
    if (current_menu_items s).length = 0 then s
    else
      { s with page_index := (s.page_index - 1) % (get_pages s : Int),
               switches := s.switches + 1 }

/-- `MenuWidget.open_application`: push, make the application current, switch
screens, and bind its `on_close` handler. -/
def open_application (app : AppInstance) (s : MenuWidgetState) :
    MenuWidgetState :=
  let s1 := push_menu s
  let s2 := set_current_application (some app) s1
  { s2 with switches := s2.switches + 1, bound := app.id :: s2.bound }

/-- `MenuWidget.select`: warn and return when there is no current screen or
`get_item(index)` is `None`; otherwise act on the item: an Action result of
`None` does nothing, an application class (or Application item) opens a fresh
instance, a returned `Menu` (or SubMenu item) is pushed onto. -/
def select (index : Int) (fresh_id : Nat) (s : MenuWidgetState) :
    MenuWidgetState :=
  match get_current_screen s with
  | none => s
  | some screen =>
    match get_item (screen_items screen) index with
    | none => s
    | some item =>
      match item with
      | .ActionItem result =>
        match result with
        | .returnsNone => s
        | .returnsApplicationClass cls_items =>
            open_application ⟨fresh_id, cls_items⟩ s
        | .returnsMenu m =>
            let s1 := push_menu s
            let s2 := set_current_menu (some m) s1
            { s2 with switches := s2.switches + 1 }
      | .ApplicationItem cls_items => open_application ⟨fresh_id, cls_items⟩ s
      | .SubMenuItem m =>
          let s1 := push_menu s
          let s2 := set_current_menu (some m) s1
          if (get_current_screen s2).isSome then
            { s2 with switches := s2.switches + 1 }
          else s2

/-- Whether a stack entry is the application `app`
(Python `==` on widgets is identity, represented by the unique id). -/
def is_entry_of_app (app : AppInstance) : StackEntry → Bool
  | .appEntry b => app.id == b.id
  | .menuEntry _ _ => false

/-- `MenuWidget.close_application`: always `clean_application`; then
`go_back` if the application is current, else remove its first occurrence
from the stack if present, else nothing more. -/
def close_application (app : AppInstance) (s : MenuWidgetState) :
    MenuWidgetState :=
  let s1 := clean_application app s
  match s1.current_application with
  | some cur =>
    if app.id == cur.id then go_back s1
    else if s1.stack.any (is_entry_of_app app) then
      { s1 with stack := s1.stack.eraseP (is_entry_of_app app) }
    else s1
  | none =>
    if s1.stack.any (is_entry_of_app app) then
      { s1 with stack := s1.stack.eraseP (is_entry_of_app app) }
    else s1

/-- `MenuWidget.set_root_menu`: empty the stack, make `root_menu` current,
and switch screens. -/
def set_root_menu (root_menu : Menu) (s : MenuWidgetState) : MenuWidgetState :=
  let s1 := { s with stack := [] }
  let s2 := set_current_menu (some root_menu) s1
  { s2 with switches := s2.switches + 1 }

/-- The freshly constructed widget: no menu, no application, `page_index` 0,
empty stack. -/
def initial_state : MenuWidgetState :=
  { current_menu := none, current_application := none, page_index := 0,
    stack := [], bound := [], switches := 0 }

/-- One user-driven transition of the navigation state machine. -/
inductive Step : MenuWidgetState → MenuWidgetState → Prop where
  | down (s : MenuWidgetState) : Step s (go_down s)
  | up (s : MenuWidgetState) : Step s (go_up s)
  | sel (s : MenuWidgetState) (index : Int) (fresh_id : Nat) :
      Step s (select index fresh_id s)
  | back (s : MenuWidgetState) : Step s (go_back s)
  | openApp (s : MenuWidgetState) (app : AppInstance) :
      Step s (open_application app s)
  | closeApp (s : MenuWidgetState) (app : AppInstance) :
      Step s (close_application app s)

/-- States reachable from `set_root_menu` (on the fresh widget) by any
sequence of `go_down`, `go_up`, `select`, `go_back`, `open_application`,
`close_application`. -/
def Reachable (s : MenuWidgetState) : Prop :=
  ∃ root_menu : Menu,
    Relation.ReflTransGen Step (set_root_menu root_menu initial_state) s

/-- The page count of a menu, as `get_pages` computes it for the current
menu. -/
def menu_pages (m : Menu) : Nat :=
  if m.headed then (m.items.length + 2 + 2) / 3 else (m.items.length + 2) / 3

/-- A saved `(menu, page_index)` stack entry stores an index that is in
bounds for its menu (`max ... 1` accounts for menus with zero pages, whose
index is parked at 0). -/
def entry_ok : StackEntry → Prop
  | .menuEntry m pi => 0 ≤ pi ∧ pi < ((max (menu_pages m) 1 : Nat) : Int)
  | .appEntry _ => True

/-- The inductive invariant of the navigation state machine: the page index
is non-negative and in bounds for the current menu (with empty plain menus
parked at index 0), a menu and an application are never current together, and
every saved stack entry is in bounds. -/
def NavInv (s : MenuWidgetState) : Prop :=
  0 ≤ s.page_index ∧
  (s.current_menu.isSome →
    s.page_index < ((max (get_pages s) 1 : Nat) : Int)) ∧
  ¬(s.current_menu.isSome ∧ s.current_application.isSome) ∧
  (∀ e ∈ s.stack, entry_ok e)

/-- A widget state showing menu `m` at page `p`, with nothing else going on. -/
def menu_state (m : Menu) (p : Int) : MenuWidgetState :=
  { current_menu := some m, current_application := none, page_index := p,
    stack := [], bound := [], switches := 0 }

/-- The items the widget shows on page `p` of menu `m` (the item list of the
page widget `get_current_screen` constructs). -/
def shown_items (m : Menu) (p : Nat) : List MenuItem :=
  match get_current_screen (menu_state m (p : Int)) with
  | some screen => screen_items screen
  | none => []

/-- A sample inert menu item. -/
def sample_item : MenuItem := MenuItem.ActionItem ActionResult.returnsNone

/-- A sample plain (non-headed) menu with four items (two pages). -/
def sample_plain_menu : Menu :=
  Menu.mk false "" "" "plain" [sample_item, sample_item, sample_item,
    sample_item]

/-- A sample headed menu with four items (two pages). -/
def sample_headed_menu : Menu :=
  Menu.mk true "h" "sh" "headed" [sample_item, sample_item, sample_item,
    sample_item]

/-- A plain menu with no items: it has zero pages. -/
def empty_plain_menu : Menu := Menu.mk false "" "" "empty" []

/-- A sample application instance. -/
def sample_app : AppInstance := ⟨7, [sample_item]⟩

/-- The state right after `set_root_menu(empty_plain_menu)`. -/
def empty_root_state : MenuWidgetState :=
  set_root_menu empty_plain_menu initial_state

/-- The state right after `set_root_menu(sample_plain_menu)`. -/
def sample_root_state : MenuWidgetState :=
  set_root_menu sample_plain_menu initial_state

/-! ## Basic computation lemmas -/

lemma aux_scm_stack (o : Option Menu) (s : MenuWidgetState) :
    (set_current_menu o s).stack = s.stack := by
  cases o <;> simp only [set_current_menu, set_current_application] <;>
    try rfl
  split <;> rfl

lemma aux_scm_menu (m : Menu) (s : MenuWidgetState) :
    (set_current_menu (some m) s).current_menu = some m := by
  simp only [set_current_menu, set_current_application]
  split <;> rfl

lemma aux_scm_app (m : Menu) (s : MenuWidgetState) :
    (set_current_menu (some m) s).current_application = none := by
  simp only [set_current_menu, set_current_application]
  split <;> rfl

lemma aux_scm_bound (o : Option Menu) (s : MenuWidgetState) :
    (set_current_menu o s).bound = s.bound := by
  cases o <;> simp only [set_current_menu, set_current_application] <;>
    try rfl
  split <;> rfl

/-! ## C6: PageWidget construction -/

/-- C6: constructing a `PageWidget` raises `ValueError` exactly when given
more than `MAX_ITEMS = 3` items; with at most 3 items construction succeeds
and stores exactly the given items. -/
theorem c6_page_widget_max_items (items : List MenuItem) :
    (MAX_ITEMS < items.length →
      PageWidget_init items = Except.error PageWidget_init_msg) ∧
    (items.length ≤ MAX_ITEMS → PageWidget_init items = Except.ok items) := by
  constructor
  · intro h
    unfold PageWidget_init
    rw [if_pos h]
  · intro h
    unfold PageWidget_init
    rw [if_neg (by omega)]

/-- Witness for C6 at a four-item list (error) and a one-item list (ok). -/
theorem c6_page_widget_max_items_witness :
    PageWidget_init [sample_item, sample_item, sample_item, sample_item] =
      Except.error PageWidget_init_msg ∧
    PageWidget_init [sample_item] = Except.ok [sample_item] :=
  ⟨(c6_page_widget_max_items _).1 (by decide),
   (c6_page_widget_max_items _).2 (by decide)⟩

/-! ## C8: pop at depth 0 is a no-op -/

/-- C8: with an empty stack (depth 0) `pop_menu` is a no-op, and hence
`go_back` with no application open is a no-op: menu, application, page index,
stack and the screen all stay untouched. -/
theorem c8_pop_menu_depth_zero_noop (s : MenuWidgetState) (h : s.stack = []) :
    pop_menu s = s ∧ (s.current_application = none → go_back s = s) := by
  have hp : pop_menu s = s := by
    unfold pop_menu
    rw [h]
    rfl
  exact ⟨hp, fun _ => hp⟩

/-- Witness for C8 at the freshly constructed widget. -/
theorem c8_pop_menu_depth_zero_noop_witness :
    pop_menu initial_state = initial_state ∧
    go_back initial_state = initial_state :=
  ⟨(c8_pop_menu_depth_zero_noop initial_state rfl).1,
   (c8_pop_menu_depth_zero_noop initial_state rfl).2 rfl⟩

/-! ## C9: rotation on a menu with zero items -/

lemma aux_get_pages_pos (s : MenuWidgetState)
    (hne : current_menu_items s ≠ []) : 0 < get_pages s := by
  cases hm : s.current_menu with
  | none => exact absurd (by simp [current_menu_items, menu_items, hm]) hne
  | some m =>
    have hl : 0 < m.items.length := by
      have : m.items ≠ [] := by
        simpa [current_menu_items, menu_items, hm] using hne
      exact List.length_pos.2 this
    unfold get_pages
    rw [hm]
    simp only [current_menu_items, menu_items, hm]
    split <;> omega

/-- C9: with no application open and a current menu with zero items, both
`go_down` and `go_up` return immediately leaving the state unchanged; and
whenever the guard is passed (non-empty item list) the page count — the
divisor of the `%` update — is positive. -/
theorem c9_zero_items_guard (s : MenuWidgetState) :
    (∀ m : Menu, s.current_application = none → s.current_menu = some m →
      m.items = [] → go_down s = s ∧ go_up s = s) ∧
    (s.current_application = none → current_menu_items s ≠ [] →
      0 < get_pages s) := by
  constructor
  · intro m happ hm hempty
    constructor
    · unfold go_down
      rw [happ]
      simp [current_menu_items, menu_items, hm, hempty]
    · unfold go_up
      rw [happ]
      simp [current_menu_items, menu_items, hm, hempty]
  · intro _ hne
    exact aux_get_pages_pos s hne

/-- Witness for C9 at a concrete empty plain menu (and, for the positivity
conjunct, a concrete four-item menu). -/
theorem c9_zero_items_guard_witness :
    go_down (menu_state empty_plain_menu 0) = menu_state empty_plain_menu 0 ∧
    0 < get_pages (menu_state sample_plain_menu 0) :=
  ⟨((c9_zero_items_guard (menu_state empty_plain_menu 0)).1 empty_plain_menu
      rfl rfl rfl).1,
   (c9_zero_items_guard (menu_state sample_plain_menu 0)).2 rfl
     (by simp [current_menu_items, menu_items, menu_state, sample_plain_menu,
       Menu.items])⟩

/-! ## C5: select fails only by warning -/

/-- C5: `select` never throws: with no current screen, or with an index
outside the current page's item range, it only warns and leaves the whole
state (stack, current menu, current application, page index) unchanged. -/
theorem c5_select_invalid_noop (s : MenuWidgetState) (index : Int)
    (fresh_id : Nat) :
    (get_current_screen s = none → select index fresh_id s = s) ∧
    (∀ screen : ScreenW, get_current_screen s = some screen →
      ¬(0 ≤ index ∧ index < ((screen_items screen).length : Int)) →
      select index fresh_id s = s) := by
  constructor
  · intro h
    unfold select
    rw [h]
  · intro screen hscreen hidx
    have hgi : get_item (screen_items screen) index = none := by
      unfold get_item
      rw [if_neg hidx]
    unfold select
    rw [hscreen]
    simp only [hgi]

/-- Witness for C5: no screen at the fresh widget; out-of-range index on a
concrete menu page. -/
theorem c5_select_invalid_noop_witness :
    select 0 5 initial_state = initial_state ∧
    select (-1) 5 (menu_state sample_plain_menu 0) =
      menu_state sample_plain_menu 0 :=
  ⟨(c5_select_invalid_noop initial_state 0 5).1 rfl,
   (c5_select_invalid_noop (menu_state sample_plain_menu 0) (-1) 5).2 _ rfl
     (by decide)⟩

/-! ## C2: page rotation wrap-around -/

lemma aux_get_pages_update (s : MenuWidgetState) (x : Int) (y : Nat) :
    get_pages { s with page_index := x, switches := y } = get_pages s := rfl

lemma aux_go_down_eq (s : MenuWidgetState)
    (happ : s.current_application = none)
    (hne : current_menu_items s ≠ []) :
    go_down s = { s with
      page_index := (s.page_index + 1) % (get_pages s : Int),
      switches := s.switches + 1 } := by
  have hlen : ¬((current_menu_items s).length = 0) := fun h =>
    hne (List.length_eq_zero.1 h)
  unfold go_down
  rw [happ]
  simp only [if_neg hlen]

lemma aux_go_up_eq (s : MenuWidgetState)
    (happ : s.current_application = none)
    (hne : current_menu_items s ≠ []) :
    go_up s = { s with
      page_index := (s.page_index - 1) % (get_pages s : Int),
      switches := s.switches + 1 } := by
  have hlen : ¬((current_menu_items s).length = 0) := fun h =>
    hne (List.length_eq_zero.1 h)
  unfold go_up
  rw [happ]
  simp only [if_neg hlen]

lemma aux_neg_one_emod (P : Int) (hP : 0 < P) : (-1) % P = P - 1 := by
  have h := Int.add_mul_emod_self_left (-1) P 1
  have e : (-1) + P * 1 = P - 1 := by ring
  rw [e] at h
  rw [← h]
  exact Int.emod_eq_of_lt (by omega) (by omega)

lemma aux_emod_rotate (pi P : Int) (h0 : 0 ≤ pi) (h1 : pi < P) :
    ((pi + 1) % P - 1) % P = pi := by
  rcases eq_or_lt_of_le (by omega : pi + 1 ≤ P) with heq | hlt
  · rw [heq, Int.emod_self]
    have e : (0 : Int) - 1 = -1 := by ring
    rw [e, aux_neg_one_emod P (by omega)]
    omega
  · rw [Int.emod_eq_of_lt (by omega) hlt]
    have e : pi + 1 - 1 = pi := by ring
    rw [e]
    exact Int.emod_eq_of_lt h0 h1

/-- C2: with no application open and a current menu with at least one item,
`go_down` sets `page_index` to `(page_index + 1) % pages` and `go_up` to
`(page_index - 1) % pages`; on the last page `go_down` rotates to page 0, on
page 0 `go_up` rotates to the last page, and `go_up` after `go_down` restores
the original page index.  (The index bounds hold in every reachable state.) -/
theorem c2_page_rotation (s : MenuWidgetState) (m : Menu)
    (happ : s.current_application = none) (hm : s.current_menu = some m)
    (hne : m.items ≠ []) (h0 : 0 ≤ s.page_index)
    (h1 : s.page_index < (get_pages s : Int)) :
    (go_down s).page_index = (s.page_index + 1) % (get_pages s : Int) ∧
    (go_up s).page_index = (s.page_index - 1) % (get_pages s : Int) ∧
    (s.page_index = (get_pages s : Int) - 1 → (go_down s).page_index = 0) ∧
    (s.page_index = 0 → (go_up s).page_index = (get_pages s : Int) - 1) ∧
    (go_up (go_down s)).page_index = s.page_index := by
  have hne' : current_menu_items s ≠ [] := by
    simpa [current_menu_items, menu_items, hm] using hne
  have hd := aux_go_down_eq s happ hne'
  have hu := aux_go_up_eq s happ hne'
  have hP : 0 < get_pages s := aux_get_pages_pos s hne'
  have hPi : (0 : Int) < (get_pages s : Int) := by exact_mod_cast hP
  refine ⟨by rw [hd], by rw [hu], ?_, ?_, ?_⟩
  · intro hlast
    rw [hd]
    dsimp only
    rw [hlast]
    have e : (get_pages s : Int) - 1 + 1 = (get_pages s : Int) := by ring
    rw [e, Int.emod_self]
  · intro hz
    rw [hu]
    dsimp only
    rw [hz]
    have e : (0 : Int) - 1 = -1 := by ring
    rw [e]
    exact aux_neg_one_emod _ hPi
  · have happ2 : (go_down s).current_application = none := by
      rw [hd]
      exact happ
    have hne2 : current_menu_items (go_down s) ≠ [] := by
      rw [hd]
      exact hne'
    have hu2 := aux_go_up_eq (go_down s) happ2 hne2
    rw [hu2]
    dsimp only
    rw [hd]
    dsimp only
    exact aux_emod_rotate s.page_index _ h0 h1

/-- Witness for C2 at a four-item plain menu on page 0. -/
theorem c2_page_rotation_witness :
    (go_up (go_down (menu_state sample_plain_menu 0))).page_index = 0 ∧
    (go_down (menu_state sample_plain_menu 0)).page_index =
      (0 + 1) % ((get_pages (menu_state sample_plain_menu 0) : Nat) : Int) := by
  have h := c2_page_rotation (menu_state sample_plain_menu 0)
    sample_plain_menu rfl rfl
    (by simp [sample_plain_menu, Menu.items]) (by decide) (by decide)
  exact ⟨h.2.2.2.2, h.1⟩

/-! ## C4: push/pop symmetry -/

lemma aux_pop_concat_menu (s : MenuWidgetState) (st : List StackEntry)
    (m : Menu) (pi : Int)
    (hst : s.stack = st ++ [StackEntry.menuEntry m pi]) :
    pop_menu s =
      { set_current_menu (some m) { s with stack := st } with
        page_index := pi,
        switches :=
          (set_current_menu (some m) { s with stack := st }).switches + 1 } := by
  unfold pop_menu
  rw [hst]
  simp only [List.getLast?_concat, List.dropLast_concat]

/-- C4: from any state with a current menu, `push_menu` appends
`(current_menu, page_index)` to the stack and resets `page_index` to 0; after
making any other menu current, `pop_menu` restores the original current menu,
page index, and stack contents. -/
theorem c4_push_pop_symmetry (s : MenuWidgetState) (m other : Menu)
    (hm : s.current_menu = some m) :
    (push_menu s).stack =
      s.stack ++ [StackEntry.menuEntry m s.page_index] ∧
    (push_menu s).page_index = 0 ∧
    (pop_menu (set_current_menu (some other) (push_menu s))).current_menu =
      some m ∧
    (pop_menu (set_current_menu (some other) (push_menu s))).page_index =
      s.page_index ∧
    (pop_menu (set_current_menu (some other) (push_menu s))).stack =
      s.stack := by
  have hpush : push_menu s = { s with
      stack := s.stack ++ [StackEntry.menuEntry m s.page_index],
      page_index := 0 } := by
    unfold push_menu
    rw [hm]
  have hstack1 : (set_current_menu (some other) (push_menu s)).stack =
      s.stack ++ [StackEntry.menuEntry m s.page_index] := by
    rw [aux_scm_stack, hpush]
  have hpop := aux_pop_concat_menu _ s.stack m s.page_index hstack1
  refine ⟨by rw [hpush], by rw [hpush], ?_, ?_, ?_⟩
  · rw [hpop]
    exact aux_scm_menu m _
  · rw [hpop]
  · rw [hpop]
    exact aux_scm_stack (some m) _

/-- Witness for C4: push a four-item plain menu at page 1, switch to a headed
menu, pop. -/
theorem c4_push_pop_symmetry_witness :
    (pop_menu (set_current_menu (some sample_headed_menu)
        (push_menu (menu_state sample_plain_menu 1)))).current_menu =
      some sample_plain_menu ∧
    (pop_menu (set_current_menu (some sample_headed_menu)
        (push_menu (menu_state sample_plain_menu 1)))).page_index = 1 ∧
    (pop_menu (set_current_menu (some sample_headed_menu)
        (push_menu (menu_state sample_plain_menu 1)))).stack = [] := by
  have h := c4_push_pop_symmetry (menu_state sample_plain_menu 1)
    sample_plain_menu sample_headed_menu rfl
  exact ⟨h.2.2.1, h.2.2.2.1, h.2.2.2.2⟩

/-! ## C1: pagination -/

lemma aux_pySlice_chunk {α : Type} (l : List α) (a : Nat) :
    pySlice l (a : Int) ((a : Int) + 3) = (l.drop a).take 3 := by
  simp only [pySlice]
  rw [if_neg (by omega), if_neg (by omega)]
  rcases le_or_lt l.length a with hc | hc
  · have e1 : (min (a : Int) (l.length : Int)).toNat = l.length := by omega
    have e2 : (min ((a : Int) + 3) (l.length : Int) -
        min (a : Int) (l.length : Int)).toNat = 0 := by omega
    rw [e1, e2, List.drop_length, List.drop_eq_nil_of_le hc]
    rfl
  · have e1 : (min (a : Int) (l.length : Int)).toNat = a := by omega
    rcases le_or_lt (a + 3) l.length with hd | hd
    · have e2 : (min ((a : Int) + 3) (l.length : Int) -
          min (a : Int) (l.length : Int)).toNat = 3 := by omega
      rw [e1, e2]
    · have e2 : (min ((a : Int) + 3) (l.length : Int) -
          min (a : Int) (l.length : Int)).toNat = l.length - a := by omega
      rw [e1, e2,
        List.take_of_length_le (le_of_eq (List.length_drop a l)),
        List.take_of_length_le (by rw [List.length_drop]; omega)]

lemma aux_shown_plain (m : Menu) (hm : m.headed = false) (p : Nat) :
    shown_items m p = (m.items.drop (3 * p)).take 3 := by
  simp only [shown_items, get_current_screen, menu_state,
    current_menu_items, menu_items, hm]
  rw [if_neg (by simp)]
  have hoffset : (if (false = true) then -(PAGE_SIZE - 1) else (0 : Int)) =
      0 := by simp
  rw [hoffset]
  have e1 : (p : Int) * 3 + 0 = ((3 * p : Nat) : Int) := by push_cast; ring
  have e2 : (p : Int) * 3 + 3 + 0 = ((3 * p : Nat) : Int) + 3 := by
    push_cast; ring
  simp only [screen_items]
  rw [e1, e2, aux_pySlice_chunk]

lemma aux_shown_headed_zero (m : Menu) (hm : m.headed = true) :
    shown_items m 0 = m.items.take 1 := by
  simp only [shown_items, get_current_screen, menu_state,
    current_menu_items, menu_items, hm]
  rw [if_pos (by simp)]
  simp only [screen_items]

lemma aux_shown_headed_succ (m : Menu) (hm : m.headed = true) (p : Nat)
    (hp : 1 ≤ p) :
    shown_items m p = (m.items.drop (3 * p - 2)).take 3 := by
  simp only [shown_items, get_current_screen, menu_state,
    current_menu_items, menu_items, hm, PAGE_SIZE]
  rw [if_neg (by
    rintro ⟨h, -⟩
    omega)]
  have hoffset : (if True then -((3 : Int) - 1) else 0) = -2 := by
    norm_num
  rw [hoffset]
  have e1 : (p : Int) * 3 + -2 = ((3 * p - 2 : Nat) : Int) := by omega
  have e2 : (p : Int) * 3 + 3 + -2 = ((3 * p - 2 : Nat) : Int) + 3 := by
    omega
  simp only [screen_items]
  rw [e1, e2, aux_pySlice_chunk]

lemma aux_join_chunks (fuel : Nat) :
    ∀ l : List MenuItem, l.length ≤ fuel →
      ((List.range ((l.length + 2) / 3)).map
        (fun p => (l.drop (3 * p)).take 3)).flatten = l := by
  induction fuel with
  | zero =>
    intro l hl
    have : l = [] := List.length_eq_zero.1 (Nat.le_zero.1 hl)
    subst this
    simp
  | succ n ih =>
    intro l hl
    cases l with
    | nil => simp
    | cons x xs =>
      have hlen : (x :: xs).length = xs.length + 1 := List.length_cons x xs
      have h1 : ((x :: xs).length + 2) / 3 =
          (((x :: xs).drop 3).length + 2) / 3 + 1 := by
        rw [List.length_drop, hlen]
        omega
      rw [h1, List.range_succ_eq_map]
      simp only [List.map_cons, List.flatten_cons, List.map_map]
      have hfun : ((fun p => ((x :: xs).drop (3 * p)).take 3) ∘ Nat.succ) =
          (fun p => (((x :: xs).drop 3).drop (3 * p)).take 3) := by
        funext q
        simp only [Function.comp_apply, Nat.succ_eq_add_one, List.drop_drop]
        exact congrArg (fun k => ((x :: xs).drop k).take 3)
          (by omega : 3 * (q + 1) = 3 + 3 * q)
      rw [hfun, ih ((x :: xs).drop 3)
        (by rw [List.length_drop, hlen]; omega)]
      have e0 : 3 * 0 = 0 := by ring
      rw [e0, List.drop_zero]
      exact List.take_append_drop 3 (x :: xs)

/-- C1: pagination is determined by the item count and headedness: with no
current menu there are 0 pages; a plain menu with `n` items has `⌈n / 3⌉`
pages and page `p` shows exactly items `3p .. 3p+2`; a headed menu has
`⌈(n + 2) / 3⌉` pages, page 0 shows only item 0 (`items[:1]`), and each page
`p ≥ 1` shows exactly items `3p-2 .. 3p`; concatenating all pages in order
yields the item list, so every item appears on exactly one page. -/
theorem c1_pagination :
    (∀ s : MenuWidgetState, s.current_menu = none → get_pages s = 0) ∧
    (∀ m : Menu,
      (m.headed = false →
        (∀ s : MenuWidgetState, s.current_menu = some m →
          get_pages s = m.items.length ⌈/⌉ 3) ∧
        ∀ p : Nat, shown_items m p = (m.items.drop (3 * p)).take 3) ∧
      (m.headed = true →
        (∀ s : MenuWidgetState, s.current_menu = some m →
          get_pages s = (m.items.length + 2) ⌈/⌉ 3) ∧
        shown_items m 0 = m.items.take 1 ∧
        ∀ p : Nat, 1 ≤ p →
          shown_items m p = (m.items.drop (3 * p - 2)).take 3) ∧
      ((List.range (get_pages (menu_state m 0))).map
        (shown_items m)).flatten = m.items) := by
  have hplainpages : ∀ (m : Menu), m.headed = false →
      ∀ s : MenuWidgetState, s.current_menu = some m →
        get_pages s = (m.items.length + 2) / 3 := by
    intro m hm s hs
    unfold get_pages
    rw [hs]
    simp [current_menu_items, menu_items, hs, hm]
  have hheadedpages : ∀ (m : Menu), m.headed = true →
      ∀ s : MenuWidgetState, s.current_menu = some m →
        get_pages s = (m.items.length + 2 + 2) / 3 := by
    intro m hm s hs
    unfold get_pages
    rw [hs]
    simp [current_menu_items, menu_items, hs, hm]
  refine ⟨?_, fun m => ⟨fun hm => ⟨?_, aux_shown_plain m hm⟩,
    fun hm => ⟨?_, aux_shown_headed_zero m hm,
      aux_shown_headed_succ m hm⟩, ?_⟩⟩
  · intro s hs
    unfold get_pages
    rw [hs]
  · intro s hs
    rw [hplainpages m ‹m.headed = false› s hs, Nat.ceilDiv_eq_add_pred_div]
    omega
  · intro s hs
    rw [hheadedpages m ‹m.headed = true› s hs, Nat.ceilDiv_eq_add_pred_div]
    omega
  · cases hm : m.headed with
    | false =>
      have hfun : shown_items m = fun p => (m.items.drop (3 * p)).take 3 :=
        funext (aux_shown_plain m hm)
      rw [hplainpages m hm (menu_state m 0) rfl, hfun,
        aux_join_chunks m.items.length m.items le_rfl]
    | true =>
      have hM : get_pages (menu_state m 0) =
          ((m.items.drop 1).length + 2) / 3 + 1 := by
        rw [hheadedpages m hm (menu_state m 0) rfl, List.length_drop]
        omega
      rw [hM, List.range_succ_eq_map]
      simp only [List.map_cons, List.flatten_cons, List.map_map]
      rw [aux_shown_headed_zero m hm]
      have hfun : (shown_items m ∘ Nat.succ) =
          (fun q => ((m.items.drop 1).drop (3 * q)).take 3) := by
        funext q
        simp only [Function.comp_apply, Nat.succ_eq_add_one, List.drop_drop]
        rw [aux_shown_headed_succ m hm (q + 1) (by omega)]
        exact congrArg (fun k => (m.items.drop k).take 3)
          (by omega : 3 * (q + 1) - 2 = 1 + 3 * q)
      rw [hfun, aux_join_chunks (m.items.drop 1).length (m.items.drop 1)
        le_rfl]
      exact List.take_append_drop 1 m.items

/-- Witness for C1 at concrete four-item plain and headed menus. -/
theorem c1_pagination_witness :
    get_pages (menu_state sample_plain_menu 0) = 4 ⌈/⌉ 3 ∧
    shown_items sample_plain_menu 1 = [sample_item] ∧
    get_pages (menu_state sample_headed_menu 0) = (4 + 2) ⌈/⌉ 3 ∧
    shown_items sample_headed_menu 0 = [sample_item] := by
  have hplain := (c1_pagination.2 sample_plain_menu).1 rfl
  have hheaded := (c1_pagination.2 sample_headed_menu).2.1 rfl
  refine ⟨hplain.1 (menu_state sample_plain_menu 0) rfl, ?_,
    hheaded.1 (menu_state sample_headed_menu 0) rfl, ?_⟩
  · rw [hplain.2 1]
    rfl
  · rw [hheaded.2.1]
    rfl

/-! ## C7: closing an application -/

lemma aux_pop_stack (s : MenuWidgetState) :
    (pop_menu s).stack = s.stack.dropLast := by
  unfold pop_menu
  cases hl : s.stack.getLast? with
  | none =>
    rw [List.getLast?_eq_none_iff.1 hl]
    rfl
  | some target =>
    cases target with
    | menuEntry m pi =>
      simp only [aux_scm_stack]
    | appEntry b =>
      cases hc : s.current_application with
      | none => simp [set_current_application, clean_application, hc]
      | some cur => simp [set_current_application, clean_application, hc]

lemma aux_pop_len (s : MenuWidgetState) (h : s.stack ≠ []) :
    (pop_menu s).stack.length + 1 = s.stack.length := by
  rw [aux_pop_stack, List.length_dropLast]
  have := List.length_pos.2 h
  omega

/-- C7: `close_application(a)` always unbinds the `on_close` handler first;
if `a` is current it performs `go_back`, popping one stack frame (the stack
is non-empty in every reachable state with an application open); if `a` is
not current but sits in the stack, it is removed from the stack and the
current menu, current application and page index stay unchanged; otherwise
only the unbind happens. -/
theorem c7_close_application (a : AppInstance) (s : MenuWidgetState) :
    (∀ cur : AppInstance, s.current_application = some cur → cur.id = a.id →
      s.stack ≠ [] →
      close_application a s = go_back (clean_application a s) ∧
      (close_application a s).stack.length + 1 = s.stack.length) ∧
    ((∀ cur : AppInstance, s.current_application = some cur →
        cur.id ≠ a.id) →
      s.stack.any (is_entry_of_app a) = true →
      close_application a s =
        { s with bound := s.bound.erase a.id,
                 stack := s.stack.eraseP (is_entry_of_app a) } ∧
      (close_application a s).stack.length + 1 = s.stack.length) ∧
    ((∀ cur : AppInstance, s.current_application = some cur →
        cur.id ≠ a.id) →
      s.stack.any (is_entry_of_app a) = false →
      close_application a s = clean_application a s) := by
  refine ⟨?_, ?_, ?_⟩
  · intro cur hcur hid hne
    have h1 : close_application a s = go_back (clean_application a s) := by
      unfold close_application
      simp only [clean_application, hcur]
      rw [if_pos (show (a.id == cur.id) = true by simp [hid])]
    refine ⟨h1, ?_⟩
    rw [h1]
    unfold go_back
    have hc : (clean_application a s).stack = s.stack := rfl
    have := aux_pop_len (clean_application a s) (by rw [hc]; exact hne)
    rw [hc] at this
    exact this
  · intro hnot hin
    have heq : close_application a s =
        { s with bound := s.bound.erase a.id,
                 stack := s.stack.eraseP (is_entry_of_app a) } := by
      unfold close_application
      cases hc : s.current_application with
      | none =>
        simp only [clean_application, hc]
        rw [if_pos hin]
      | some cur =>
        simp only [clean_application, hc]
        have hne : a.id ≠ cur.id := fun h => hnot cur hc h.symm
        rw [if_neg (by simp [hne]), if_pos hin]
    refine ⟨heq, ?_⟩
    rw [heq]
    have hlen := List.length_eraseP (l := s.stack) (p := is_entry_of_app a)
    rw [hin] at hlen
    simp only [if_true] at hlen
    have hpos : 0 < s.stack.length := by
      rcases List.any_eq_true.1 hin with ⟨x, hx, -⟩
      exact List.length_pos.2 (List.ne_nil_of_mem hx)
    simp only [hlen]
    omega
  · intro hnot hout
    unfold close_application
    cases hc : s.current_application with
    | none =>
      simp only [clean_application, hc]
      rw [if_neg (by simp [hout])]
    | some cur =>
      simp only [clean_application, hc]
      have hne : a.id ≠ cur.id := fun h => hnot cur hc h.symm
      rw [if_neg (by simp [hne]), if_neg (by simp [hout])]

/-- Witness for C7: closing an application that is neither current nor in
the stack only unbinds. -/
theorem c7_close_application_witness :
    close_application sample_app (menu_state sample_plain_menu 0) =
      clean_application sample_app (menu_state sample_plain_menu 0) :=
  (c7_close_application sample_app (menu_state sample_plain_menu 0)).2.2
    (fun cur hcur => by simp [menu_state] at hcur) rfl

/-! ## Invariant machinery for C3 and C10 -/

lemma aux_get_pages_eq (s : MenuWidgetState) (m : Menu)
    (h : s.current_menu = some m) : get_pages s = menu_pages m := by
  unfold get_pages menu_pages current_menu_items menu_items
  rw [h]

lemma aux_inv_switches (s : MenuWidgetState) (x : Nat) (h : NavInv s) :
    NavInv { s with switches := x } := h

lemma aux_scm_page (m : Menu) (s : MenuWidgetState) :
    ((set_current_menu (some m) s).page_index = s.page_index ∧
      s.page_index < (menu_pages m : Int)) ∨
    (set_current_menu (some m) s).page_index =
      max ((menu_pages m : Int) - 1) 0 := by
  simp only [set_current_menu, set_current_application]
  split
  · right
    rfl
  · rename_i hlt
    left
    refine ⟨rfl, ?_⟩
    have h2 : ¬((menu_pages m : Int) ≤ s.page_index) := hlt
    omega

lemma aux_inv_scm (menu : Option Menu) (s : MenuWidgetState)
    (hA : 0 ≤ s.page_index) (hD : ∀ e ∈ s.stack, entry_ok e) :
    NavInv (set_current_menu menu s) := by
  cases menu with
  | none =>
    refine ⟨le_refl 0, ?_, ?_, hD⟩
    · intro h
      simp [set_current_menu] at h
    · intro h
      simp [set_current_menu] at h
  | some m =>
    have hpage := aux_scm_page m s
    have hm := aux_scm_menu m s
    have happ := aux_scm_app m s
    have hst := aux_scm_stack (some m) s
    have hgp : get_pages (set_current_menu (some m) s) = menu_pages m :=
      aux_get_pages_eq _ m hm
    refine ⟨?_, ?_, ?_, ?_⟩
    · rcases hpage with ⟨he, _⟩ | he
      · rw [he]
        exact hA
      · rw [he]
        exact le_max_right _ _
    · intro _
      rw [hgp]
      rcases hpage with ⟨he, hb⟩ | he
      · rw [he]
        push_cast
        omega
      · rw [he]
        push_cast
        omega
    · simp [hm, happ]
    · rw [hst]
      exact hD

lemma aux_inv_sca_some (a : AppInstance) (s : MenuWidgetState)
    (hD : ∀ e ∈ s.stack, entry_ok e) :
    NavInv (set_current_application (some a) s) :=
  ⟨le_refl 0, by simp [set_current_application], by simp [set_current_application], hD⟩

lemma aux_push_entries (s : MenuWidgetState) (h : NavInv s) :
    ∀ e ∈ (push_menu s).stack, entry_ok e := by
  obtain ⟨hA, hB, hC, hD⟩ := h
  unfold push_menu
  cases hm : s.current_menu with
  | some m =>
    intro e he
    rcases List.mem_append.1 he with hold | hnew
    · exact hD e hold
    · have : e = StackEntry.menuEntry m s.page_index := by
        simpa using hnew
      subst this
      refine ⟨hA, ?_⟩
      have := hB (by rw [hm]; rfl)
      rwa [aux_get_pages_eq s m hm] at this
  | none =>
    cases hc : s.current_application with
    | some b =>
      intro e he
      rcases List.mem_append.1 he with hold | hnew
      · exact hD e hold
      · have : e = StackEntry.appEntry b := by simpa using hnew
        subst this
        trivial
    | none => exact hD

lemma aux_push_page (s : MenuWidgetState) : (push_menu s).page_index = 0 := by
  unfold push_menu
  cases s.current_menu with
  | some m => rfl
  | none =>
    cases s.current_application with
    | some b => rfl
    | none => rfl

lemma aux_inv_push_scm (m : Menu) (s : MenuWidgetState) (h : NavInv s) :
    NavInv (set_current_menu (some m) (push_menu s)) :=
  aux_inv_scm (some m) (push_menu s)
    (by rw [aux_push_page]) (aux_push_entries s h)

lemma aux_inv_open (app : AppInstance) (s : MenuWidgetState) (h : NavInv s) :
    NavInv (open_application app s) := by
  unfold open_application
  have h2 := aux_inv_sca_some app (push_menu s) (aux_push_entries s h)
  exact h2

lemma aux_inv_go_down (s : MenuWidgetState) (h : NavInv s) :
    NavInv (go_down s) := by
  cases hc : s.current_application with
  | some b =>
    have he : go_down s = s := by
      unfold go_down
      rw [hc]
    rw [he]
    exact h
  | none =>
    by_cases hne : current_menu_items s = []
    · have he : go_down s = s := by
        unfold go_down
        rw [hc]
        simp [hne]
      rw [he]
      exact h
    · rw [aux_go_down_eq s hc hne]
      obtain ⟨hA, hB, hC, hD⟩ := h
      have hP : 0 < get_pages s := aux_get_pages_pos s hne
      have hPi : (0 : Int) < (get_pages s : Int) := by exact_mod_cast hP
      refine ⟨Int.emod_nonneg _ (by omega), ?_, hC, hD⟩
      intro _
      show (s.page_index + 1) % (get_pages s : Int) <
        ((max (get_pages s) 1 : Nat) : Int)
      rw [max_eq_left (by omega : 1 ≤ get_pages s)]
      exact Int.emod_lt_of_pos _ hPi

lemma aux_inv_go_up (s : MenuWidgetState) (h : NavInv s) :
    NavInv (go_up s) := by
  cases hc : s.current_application with
  | some b =>
    have he : go_up s = s := by
      unfold go_up
      rw [hc]
    rw [he]
    exact h
  | none =>
    by_cases hne : current_menu_items s = []
    · have he : go_up s = s := by
        unfold go_up
        rw [hc]
        simp [hne]
      rw [he]
      exact h
    · rw [aux_go_up_eq s hc hne]
      obtain ⟨hA, hB, hC, hD⟩ := h
      have hP : 0 < get_pages s := aux_get_pages_pos s hne
      have hPi : (0 : Int) < (get_pages s : Int) := by exact_mod_cast hP
      refine ⟨Int.emod_nonneg _ (by omega), ?_, hC, hD⟩
      intro _
      show (s.page_index - 1) % (get_pages s : Int) <
        ((max (get_pages s) 1 : Nat) : Int)
      rw [max_eq_left (by omega : 1 ≤ get_pages s)]
      exact Int.emod_lt_of_pos _ hPi

lemma aux_pop_app_fields (s : MenuWidgetState) (b : AppInstance)
    (hl : s.stack.getLast? = some (StackEntry.appEntry b)) :
    (pop_menu s).current_menu = none ∧
    (pop_menu s).current_application = some b ∧
    (pop_menu s).page_index = 0 := by
  unfold pop_menu
  simp only [hl]
  cases hc : s.current_application with
  | none => simp [set_current_application, clean_application, hc]
  | some cur => simp [set_current_application, clean_application, hc]

lemma aux_pop_menu_fields (s : MenuWidgetState) (m : Menu) (pi : Int)
    (hl : s.stack.getLast? = some (StackEntry.menuEntry m pi)) :
    (pop_menu s).current_menu = some m ∧
    (pop_menu s).current_application = none ∧
    (pop_menu s).page_index = pi := by
  unfold pop_menu
  rw [hl]
  exact ⟨aux_scm_menu m _, aux_scm_app m _, rfl⟩

lemma aux_inv_pop (s : MenuWidgetState) (h : NavInv s) :
    NavInv (pop_menu s) := by
  obtain ⟨hA, hB, hC, hD⟩ := h
  cases hl : s.stack.getLast? with
  | none =>
    have he : pop_menu s = s := by
      unfold pop_menu
      rw [hl]
    rw [he]
    exact ⟨hA, hB, hC, hD⟩
  | some target =>
    have htmem : target ∈ s.stack := List.mem_of_getLast?_eq_some hl
    have hDrop : ∀ e ∈ (pop_menu s).stack, entry_ok e := by
      rw [aux_pop_stack]
      exact fun e he => hD e (List.dropLast_subset _ he)
    cases target with
    | appEntry b =>
      obtain ⟨h1, h2, h3⟩ := aux_pop_app_fields s b hl
      refine ⟨?_, ?_, ?_, hDrop⟩
      · rw [h3]
      · intro hsome
        rw [h1] at hsome
        simp at hsome
      · intro hboth
        rw [h1] at hboth
        simp at hboth
    | menuEntry m pi =>
      obtain ⟨h1, h2, h3⟩ := aux_pop_menu_fields s m pi hl
      obtain ⟨hok1, hok2⟩ := hD _ htmem
      refine ⟨?_, ?_, ?_, hDrop⟩
      · rw [h3]
        exact hok1
      · intro _
        rw [h3, aux_get_pages_eq _ m h1]
        exact hok2
      · intro hboth
        rw [h2] at hboth
        simp at hboth

lemma aux_inv_select (i : Int) (fid : Nat) (s : MenuWidgetState)
    (h : NavInv s) : NavInv (select i fid s) := by
  cases hscr : get_current_screen s with
  | none =>
    have he : select i fid s = s := by
      unfold select
      rw [hscr]
    rw [he]
    exact h
  | some screen =>
    cases hitem : get_item (screen_items screen) i with
    | none =>
      have he : select i fid s = s := by
        unfold select
        rw [hscr]
        simp only [hitem]
      rw [he]
      exact h
    | some item =>
      cases item with
      | ActionItem result =>
        cases result with
        | returnsNone =>
          have he : select i fid s = s := by
            unfold select
            rw [hscr]
            simp only [hitem]
          rw [he]
          exact h
        | returnsMenu m =>
          have he : select i fid s =
              { set_current_menu (some m) (push_menu s) with
                switches :=
                  (set_current_menu (some m) (push_menu s)).switches + 1 } := by
            unfold select
            rw [hscr]
            simp only [hitem]
          rw [he]
          exact aux_inv_switches _ _ (aux_inv_push_scm m s h)
        | returnsApplicationClass cls =>
          have he : select i fid s = open_application ⟨fid, cls⟩ s := by
            unfold select
            rw [hscr]
            simp only [hitem]
          rw [he]
          exact aux_inv_open _ s h
      | ApplicationItem cls =>
        have he : select i fid s = open_application ⟨fid, cls⟩ s := by
          unfold select
          rw [hscr]
          simp only [hitem]
        rw [he]
        exact aux_inv_open _ s h
      | SubMenuItem m =>
        have h2 := aux_inv_push_scm m s h
        have he : select i fid s =
            (if (get_current_screen
                  (set_current_menu (some m) (push_menu s))).isSome = true then
              { set_current_menu (some m) (push_menu s) with
                switches :=
                  (set_current_menu (some m) (push_menu s)).switches + 1 }
            else set_current_menu (some m) (push_menu s)) := by
          unfold select
          rw [hscr]
          simp only [hitem]
        rw [he]
        split
        · exact aux_inv_switches _ _ h2
        · exact h2

lemma aux_inv_close (a : AppInstance) (s : MenuWidgetState) (h : NavInv s) :
    NavInv (close_application a s) := by
  obtain ⟨hA, hB, hC, hD⟩ := h
  unfold close_application
  cases hc : s.current_application with
  | some cur =>
    simp only [clean_application, hc]
    rw [hc] at hC
    by_cases hid : (a.id == cur.id) = true
    · rw [if_pos hid]
      unfold go_back
      exact aux_inv_pop _ ⟨hA, hB, hC, hD⟩
    · rw [if_neg hid]
      split
      · refine ⟨hA, hB, hC, ?_⟩
        intro e he
        exact hD e (List.mem_of_mem_eraseP he)
      · exact ⟨hA, hB, hC, hD⟩
  | none =>
    simp only [clean_application, hc]
    rw [hc] at hC
    split
    · refine ⟨hA, hB, hC, ?_⟩
      intro e he
      exact hD e (List.mem_of_mem_eraseP he)
    · exact ⟨hA, hB, hC, hD⟩

lemma aux_inv_root (m : Menu) : NavInv (set_root_menu m initial_state) := by
  unfold set_root_menu
  exact aux_inv_switches _ _ (aux_inv_scm (some m)
    { initial_state with stack := [] } (le_refl 0)
    (fun e he => absurd he (List.not_mem_nil e)))

lemma aux_step_inv (s t : MenuWidgetState) (hstep : Step s t)
    (h : NavInv s) : NavInv t := by
  cases hstep with
  | down => exact aux_inv_go_down s h
  | up => exact aux_inv_go_up s h
  | sel index fresh_id => exact aux_inv_select index fresh_id s h
  | back => exact aux_inv_pop s h
  | openApp app => exact aux_inv_open app s h
  | closeApp app => exact aux_inv_close app s h

lemma aux_reachable_inv (s : MenuWidgetState) (h : Reachable s) :
    NavInv s := by
  obtain ⟨m, hsteps⟩ := h
  induction hsteps with
  | refl => exact aux_inv_root m
  | tail hst hstep ih => exact aux_step_inv _ _ hstep ih

/-! ## C3: reachable-state invariant (corrected) -/

/-- Counterexample to C3 as stated: `set_root_menu` with an empty plain menu
is reachable, has a current menu, and yet `page_index = 0` is not less than
`get_pages() = 0`. -/
theorem c3_counterexample :
    Reachable empty_root_state ∧
    empty_root_state.current_menu.isSome = true ∧
    ¬(empty_root_state.page_index < (get_pages empty_root_state : Int)) := by
  refine ⟨⟨empty_plain_menu, Relation.ReflTransGen.refl⟩, ?_, ?_⟩
  · decide
  · decide

/-- C3 (amended): in every state reachable from `set_root_menu` by the six
operations, `0 ≤ page_index`, and `page_index < max(get_pages(), 1)` whenever
a menu is current — i.e. strictly below the page count whenever the current
menu has at least one page, with `page_index` parked at 0 for a zero-page
(empty plain) menu; and the stack depth reported by `get_depth` is the length
of the navigation stack. -/
theorem c3_reachable_invariant (s : MenuWidgetState) (h : Reachable s) :
    (0 ≤ s.page_index ∧
      (s.current_menu.isSome →
        s.page_index < ((max (get_pages s) 1 : Nat) : Int))) ∧
    get_depth s = s.stack.length := by
  have hinv := aux_reachable_inv s h
  exact ⟨⟨hinv.1, hinv.2.1⟩, rfl⟩

/-- Witness for C3 at the root state of a concrete four-item menu. -/
theorem c3_reachable_invariant_witness :
    (0 ≤ sample_root_state.page_index ∧
      (sample_root_state.current_menu.isSome →
        sample_root_state.page_index <
          ((max (get_pages sample_root_state) 1 : Nat) : Int))) ∧
    get_depth sample_root_state = sample_root_state.stack.length :=
  c3_reachable_invariant sample_root_state
    ⟨sample_plain_menu, Relation.ReflTransGen.refl⟩

/-! ## C10: menu/application mutual exclusion -/

/-- C10: setting a non-`None` current application clears the current menu,
setting a non-`None` current menu clears the current application, and in
every reachable state the current menu and the current application are never
both set. -/
theorem c10_menu_app_exclusive :
    (∀ (a : AppInstance) (s : MenuWidgetState),
      (set_current_application (some a) s).current_menu = none) ∧
    (∀ (m : Menu) (s : MenuWidgetState),
      (set_current_menu (some m) s).current_application = none) ∧
    (∀ s : MenuWidgetState, Reachable s →
      ¬(s.current_menu.isSome ∧ s.current_application.isSome)) := by
  refine ⟨fun a s => rfl, fun m s => aux_scm_app m s, fun s h => ?_⟩
  exact (aux_reachable_inv s h).2.2.1

/-- Witness for C10 at a concrete application, menu and reachable state. -/
theorem c10_menu_app_exclusive_witness :
    (set_current_application (some sample_app) sample_root_state).current_menu
      = none ∧
    (set_current_menu (some sample_headed_menu)
      sample_root_state).current_application = none ∧
    ¬(sample_root_state.current_menu.isSome ∧
      sample_root_state.current_application.isSome) :=
  ⟨c10_menu_app_exclusive.1 sample_app sample_root_state,
   c10_menu_app_exclusive.2.1 sample_headed_menu sample_root_state,
   c10_menu_app_exclusive.2.2 sample_root_state
     ⟨sample_plain_menu, Relation.ReflTransGen.refl⟩⟩
